import Mathlib

/-!
Shallow embedding of the interest-scoring and content-ranking logic of
`src/lib/user-interests.ts` (a browser-side personalization module), together
with theorems settling the spec claims about it.

Modelling conventions:
* `localStorage` under the single profile key is modelled as `Storage :=
  Option UserInterestProfile` (the JSON-parsed value, `none` when the key is
  absent).  Functions that read take the store as an argument; the one
  function that writes (`trackInterestFromBlog`) returns the new store.
* ISO date strings are modelled by their epoch-millisecond value (`Int`),
  and `new Date()` by an explicit `now : Int` parameter threaded through.
* JavaScript `String.prototype.toLowerCase` / `trim` are modelled by
  `jsToLower` / `jsTrim` over the character list of a Lean `String`.
* `Array.prototype.sort(cmp)` is stable (ES2019); with the comparator
  `(a, b) => b.score - a.score` it is exactly `List.insertionSort r` for
  `r a b := b.score ≤ a.score` (an element is inserted before the first
  later element whose score is not larger, hence after all earlier equal
  scores).
* `maxResults ? xs.slice(0, maxResults) : xs` tests JavaScript truthiness:
  `maxResults = 0` is falsy and skips the truncation (`truncMaxResults`).
-/

namespace UserInterests

/-- Model of JavaScript `String.prototype.toLowerCase` (character-wise). -/
def jsToLower (s : String) : String := ⟨s.data.map Char.toLower⟩

/-- Model of JavaScript `String.prototype.trim`: drop whitespace from both ends. -/
def jsTrim (s : String) : String :=
  ⟨((s.data.dropWhile Char.isWhitespace).reverse.dropWhile Char.isWhitespace).reverse⟩

/-- `interface UserInterest` of `user-interests.ts`. -/
structure UserInterest where
  tag : String
  score : Int
  lastUpdated : Int
  viewCount : Int
deriving DecidableEq, Repr

/-- `interface UserInterestProfile` of `user-interests.ts`. -/
structure UserInterestProfile where
  interests : List UserInterest
  totalBlogViews : Int
  lastActive : Int
  created : Int
deriving DecidableEq, Repr

/-- The contents of `localStorage` under `INTEREST_STORAGE_KEY`, JSON-parsed. -/
abbrev Storage := Option UserInterestProfile

/-- `const MAX_INTERESTS = 20`. -/
def MAX_INTERESTS : Nat := 20

/-- `const INTEREST_DECAY_DAYS = 30`. -/
def INTEREST_DECAY_DAYS : Int := 30

/-- Milliseconds per day, the `24 * 60 * 60 * 1000` factor in the cutoff. -/
def millisPerDay : Int := 24 * 60 * 60 * 1000

/-- `createEmptyProfile()`. -/
def createEmptyProfile (now : Int) : UserInterestProfile :=
  { interests := [], totalBlogViews := 0, lastActive := now, created := now }

/-- `getUserInterestProfile()`: load the stored profile and drop interests whose
`lastUpdated` is older than the 30-day cutoff (`lastUpdated > cutoffDate`). -/
def getUserInterestProfile (store : Storage) (now : Int) : UserInterestProfile :=
  match store with
  | none => createEmptyProfile now
  | some profile =>
    let cutoffDate := now - INTEREST_DECAY_DAYS * millisPerDay
    { profile with
        interests := profile.interests.filter (fun i => decide (cutoffDate < i.lastUpdated)) }

/-- `getUserInterestProfile()` with the storage state threaded explicitly: the
second component is the storage after the call.  The source function only calls
`localStorage.getItem`, never `setItem`, so the store is returned unchanged. -/
def getUserInterestProfileS (store : Storage) (now : Int) :
    UserInterestProfile × Storage :=
  (getUserInterestProfile store now, store)

/-- The tag normalization `tag.toLowerCase().trim()` in `trackInterestFromBlog`. -/
def cleanTagOf (tag : String) : String := jsTrim (jsToLower tag)

/-- The body of the `blogTags.forEach` loop of `trackInterestFromBlog` for a
non-blank cleaned tag: increment the first interest whose `tag` equals the
cleaned tag, or push a fresh entry with score 1 at the end. -/
def addTag (now : Int) : List UserInterest → String → List UserInterest
  | [], cleanTag => [{ tag := cleanTag, score := 1, lastUpdated := now, viewCount := 1 }]
  | i :: rest, cleanTag =>
    if i.tag = cleanTag then
      { i with score := i.score + 1, viewCount := i.viewCount + 1, lastUpdated := now } :: rest
    else
      i :: addTag now rest cleanTag

/-- One iteration of the `blogTags.forEach` loop: clean the tag, skip it when
blank (`if (!cleanTag) return`), otherwise find-and-increment or create. -/
def processTag (now : Int) (interests : List UserInterest) (tag : String) :
    List UserInterest :=
  let cleanTag := cleanTagOf tag
  if cleanTag = "" then interests else addTag now interests cleanTag

/-- The whole `blogTags.forEach` loop (lines 86-108 of `user-interests.ts`). -/
def processTags (interests : List UserInterest) (tags : List String) (now : Int) :
    List UserInterest :=
  tags.foldl (processTag now) interests

/-- The order used by `profile.interests.sort((a, b) => b.score - a.score)`:
`a` may be placed before `b` when `b.score ≤ a.score`. -/
def interestLe (a b : UserInterest) : Prop := b.score ≤ a.score

instance : DecidableRel interestLe :=
  fun a b => inferInstanceAs (Decidable (b.score ≤ a.score))

instance : IsTotal UserInterest interestLe := ⟨fun a b => le_total b.score a.score⟩

instance : IsTrans UserInterest interestLe := ⟨fun _ _ _ h1 h2 => le_trans h2 h1⟩

/-- `interests.sort((a, b) => b.score - a.score)`: stable descending sort. -/
def sortInterests (l : List UserInterest) : List UserInterest :=
  List.insertionSort interestLe l

/-- `trackInterestFromBlog(blogTags, blogUid)`: returns the storage state after
the call (the early return for an empty tag list persists nothing). -/
def trackInterestFromBlog (blogTags : List String) (_blogUid : String)
    (store : Storage) (now : Int) : Storage :=
  if blogTags.isEmpty then store
  else
    let profile := getUserInterestProfile store now
    let profile := { profile with
        totalBlogViews := profile.totalBlogViews + 1, lastActive := now }
    let interests := processTags profile.interests blogTags now
    let interests := sortInterests interests
    let interests := interests.take MAX_INTERESTS
    some { profile with interests := interests }

/-- `getUserTopInterests(limit)`; the source default for `limit` is 10. -/
def getUserTopInterests (store : Storage) (now : Int) (limit : Nat) : List String :=
  ((getUserInterestProfile store now).interests.take limit).map (fun i => i.tag)

/-- `hasUserInterests()`: `profile.interests.length > 0`. -/
def hasUserInterests (store : Storage) (now : Int) : Bool :=
  decide (0 < (getUserInterestProfile store now).interests.length)

/-- `calculateBlogRelevanceScore(blogTags)`: fold over the blog tags, adding
`userInterests.length - interestIndex` for each tag found (by `indexOf` of its
lowercased form) in the top-10 interest list. -/
def calculateBlogRelevanceScore (store : Storage) (now : Int)
    (blogTags : List String) : Int :=
  if blogTags.isEmpty then 0
  else
    let userInterests := getUserTopInterests store now 10
    if userInterests.isEmpty then 0
    else
      blogTags.foldl (fun score tag =>
        let cleanTag := jsToLower tag
        match userInterests.findIdx? (fun t => t == cleanTag) with
        | some interestIndex => score + ((userInterests.length : Int) - interestIndex)
        | none => score) 0

/-- An element of the generic `content` array of `personalizeContentByInterests`:
a payload together with the optional `categories_tags` field. -/
structure ContentItem (α : Type) where
  payload : α
  categories_tags : Option (List String)
deriving DecidableEq, Repr

/-- `item.categories_tags || []`. -/
def itemTags {α : Type} (item : ContentItem α) : List String :=
  item.categories_tags.getD []

/-- The `options` object of `personalizeContentByInterests`; `none` models an
omitted field, so the destructuring defaults (`requireMatch = false`,
`minScore = 1`) are applied with `Option.getD`. -/
structure PersonalizeOptions where
  requireMatch : Option Bool
  minScore : Option Int
  maxResults : Option Nat
deriving DecidableEq, Repr

/-- The order used by `filteredContent.sort((a, b) => b.score - a.score)` on
scored pairs. -/
def scoredLe {α : Type} (a b : ContentItem α × Int) : Prop := b.2 ≤ a.2

instance {α : Type} : DecidableRel (@scoredLe α) :=
  fun a b => inferInstanceAs (Decidable (b.2 ≤ a.2))

instance {α : Type} : IsTotal (ContentItem α × Int) scoredLe :=
  ⟨fun a b => le_total b.2 a.2⟩

instance {α : Type} : IsTrans (ContentItem α × Int) scoredLe :=
  ⟨fun _ _ _ h1 h2 => le_trans h2 h1⟩

/-- `maxResults ? xs.slice(0, maxResults) : xs`: JavaScript truthiness, so a
present-but-zero `maxResults` performs no truncation. -/
def truncMaxResults {β : Type} (l : List β) (maxResults : Option Nat) : List β :=
  match maxResults with
  | some m => if m = 0 then l else l.take m
  | none => l

/-- `personalizeContentByInterests(content, options)`. -/
def personalizeContentByInterests {α : Type} (content : List (ContentItem α))
    (options : PersonalizeOptions) (store : Storage) (now : Int) :
    List (ContentItem α) :=
  let requireMatch := options.requireMatch.getD false
  let minScore := options.minScore.getD 1
  let maxResults := options.maxResults
  if !(hasUserInterests store now) then
    truncMaxResults content maxResults
  else
    let scoredContent := content.map (fun item =>
      (item, calculateBlogRelevanceScore store now (itemTags item)))
    let filteredContent :=
      if requireMatch then scoredContent.filter (fun p => decide (minScore ≤ p.2))
      else scoredContent
    let filteredContent := List.insertionSort scoredLe filteredContent
    let filteredContent :=
      if filteredContent.isEmpty && requireMatch then scoredContent else filteredContent
    let result := filteredContent.map (fun p => p.1)
    truncMaxResults result maxResults

/-- Spec-side relevance formula (§4.2 of the spec, worded independently of the
code): the sum over candidate tags of `N - index` where `index` is the 0-based
position of the tag's lowercased form in the top-`N` interest list, absent tags
contributing 0. -/
def specRelevanceScore (candidateTags : List String) (topList : List String) : Int :=
  (candidateTags.map (fun t =>
    match topList.findIdx? (fun u => u == jsToLower t) with
    | some idx => ((topList.length : Int) - idx)
    | none => 0)).sum

/-- Spec-side decay predicate: `lastUpdated` falls within the last 30 days
before `now`. -/
def withinLast30Days (now t : Int) : Prop := now - 30 * millisPerDay < t

instance (now t : Int) : Decidable (withinLast30Days now t) :=
  inferInstanceAs (Decidable (now - 30 * millisPerDay < t))

/-- First stored entry for a cleaned tag (the `profile.interests.find` of the
tracking loop), projected through `f`; 0 when no entry exists. -/
def fOf (f : UserInterest → Int) (l : List UserInterest) (c : String) : Int :=
  ((l.find? (fun i => i.tag == c)).map f).getD 0

/-- Number of occurrences of the cleaned tag `c` among the cleaned, non-blank
forms of a call's input tags. -/
def countCleanOcc (tags : List String) (c : String) : Nat :=
  ((tags.map cleanTagOf).filter (fun t => !(t == ""))).count c

/-- The list produced by the match branch of `personalizeContentByInterests`
when `requireMatch` holds and some item passes the `minScore` filter: the
items scoring at least `minScore`, stably sorted by descending relevance. -/
def rankedMatches {α : Type} (content : List (ContentItem α)) (minScore : Int)
    (store : Storage) (now : Int) : List (ContentItem α) :=
  (List.insertionSort scoredLe
    ((content.filter (fun item =>
        decide (minScore ≤ calculateBlogRelevanceScore store now (itemTags item)))).map
      (fun item => (item, calculateBlogRelevanceScore store now (itemTags item))))).map
    (fun p => p.1)

/-- One `track(["go"])` call at time 0 (for the 25-views example). -/
def trackGoStep (s : Storage) : Storage := trackInterestFromBlog ["go"] "blog-go" s 0

/-- The profile of the spec's worked scoring example:
interests javascript (score 5) and react (score 3). -/
def exProfileC2 : UserInterestProfile :=
  { interests := [⟨"javascript", 5, 0, 1⟩, ⟨"react", 3, 0, 1⟩],
    totalBlogViews := 2, lastActive := 0, created := 0 }

/-- A profile with 11 interests, scores 11 down to 1, so that the tag `"k"` is
ranked 11th and falls outside the top-10 list. -/
def profile11 : UserInterestProfile :=
  { interests :=
      [⟨"a", 11, 0, 1⟩, ⟨"b", 10, 0, 1⟩, ⟨"c", 9, 0, 1⟩, ⟨"d", 8, 0, 1⟩,
       ⟨"e", 7, 0, 1⟩, ⟨"f", 6, 0, 1⟩, ⟨"g", 5, 0, 1⟩, ⟨"h", 4, 0, 1⟩,
       ⟨"i", 3, 0, 1⟩, ⟨"j", 2, 0, 1⟩, ⟨"k", 1, 0, 1⟩],
    totalBlogViews := 11, lastActive := 0, created := 0 }

/-- A seeded profile with 21 stored interests (more than `MAX_INTERESTS`). -/
def profile21 : UserInterestProfile :=
  { interests :=
      (["a", "b", "c", "d", "e", "f", "g", "h", "i", "j", "k", "l", "m", "n",
        "o", "p", "q", "r", "s", "t", "u"].map
        (fun t => (⟨t, 1, 0, 1⟩ : UserInterest))),
    totalBlogViews := 21, lastActive := 0, created := 0 }

/-- Stored profile with the single interest `"x"` (score 1). -/
def storeX : Storage :=
  some { interests := [⟨"x", 1, 0, 1⟩], totalBlogViews := 1, lastActive := 0, created := 0 }

/-- An untagged content item. -/
def itemPlain : ContentItem Nat := ⟨0, none⟩

/-- A content item tagged `"X"` (matches the interest `"x"` after lowercasing). -/
def itemTaggedX : ContentItem Nat := ⟨1, some ["X"]⟩

/-- Options `{ requireMatch: true, maxResults: 0 }`. -/
def optsMatchZero : PersonalizeOptions := ⟨some true, none, some 0⟩

/-- Options `{ requireMatch: true, maxResults: 0 }` (second copy, so that the
corresponding counterexamples stay independent). -/
def optsMatchZero5 : PersonalizeOptions := ⟨some true, none, some 0⟩

/-- Options `{ maxResults: 0 }`. -/
def optsZero : PersonalizeOptions := ⟨none, none, some 0⟩

/-- Options `{ requireMatch: true, maxResults: 2 }`. -/
def optsMatchTwo : PersonalizeOptions := ⟨some true, none, some 2⟩

/-- Options `{ maxResults: 1 }`. -/
def optsOne : PersonalizeOptions := ⟨none, none, some 1⟩

/-- Sample interest entries for exercising the tracking loop. -/
def entryA : UserInterest := ⟨"a", 2, 0, 1⟩

/-- A second sample interest entry for exercising the tracking loop. -/
def entryB : UserInterest := ⟨"b", 1, 0, 1⟩

/-- The profile persisted by a single `track(["go"])` call on an empty store. -/
def profileGo1 : UserInterestProfile :=
  { interests := [⟨"go", 1, 0, 1⟩], totalBlogViews := 1, lastActive := 0, created := 0 }

lemma specRelevanceScore_nil_top (tags : List String) : specRelevanceScore tags [] = 0 := by
  unfold specRelevanceScore
  induction tags with
  | nil => rfl
  | cons t ts ih => simp [List.findIdx?_nil, ih]

lemma foldl_relevance (top : List String) (tags : List String) (acc : Int) :
    tags.foldl (fun score tag =>
      match top.findIdx? (fun t => t == jsToLower tag) with
      | some interestIndex => score + ((top.length : Int) - interestIndex)
      | none => score) acc
    = acc + specRelevanceScore tags top := by
  induction tags generalizing acc with
  | nil => simp [specRelevanceScore]
  | cons t ts ih =>
    simp only [List.foldl_cons]
    rw [ih]
    unfold specRelevanceScore
    simp only [List.map_cons, List.sum_cons]
    cases h : top.findIdx? (fun u => u == jsToLower t) with
    | none => simp [h]
    | some idx => simp [h]; ring

lemma calc_eq_spec (store : Storage) (now : Int) (tags : List String) :
    calculateBlogRelevanceScore store now tags
      = specRelevanceScore tags (getUserTopInterests store now 10) := by
  cases tags with
  | nil => simp [calculateBlogRelevanceScore, specRelevanceScore]
  | cons t ts =>
    by_cases htop : getUserTopInterests store now 10 = []
    · rw [htop, specRelevanceScore_nil_top]
      simp [calculateBlogRelevanceScore, htop]
    · have hne : (getUserTopInterests store now 10).isEmpty = false := by
        simpa [List.isEmpty_iff] using htop
      simp only [calculateBlogRelevanceScore, List.isEmpty_cons, hne]
      rw [foldl_relevance]
      simp

lemma specRelevanceScore_zero_of_no_overlap (tags top : List String)
    (h : ∀ t ∈ tags, jsToLower t ∉ top) : specRelevanceScore tags top = 0 := by
  induction tags with
  | nil => rfl
  | cons t ts ih =>
    have hnone : top.findIdx? (fun u => u == jsToLower t) = none := by
      rw [List.findIdx?_eq_none_iff]
      intro u hu
      have : u ≠ jsToLower t := by
        intro he
        exact h t (List.mem_cons_self t ts) (he ▸ hu)
      simpa using this
    unfold specRelevanceScore
    simp only [List.map_cons, List.sum_cons, hnone]
    have := ih (fun t' ht' => h t' (List.mem_cons_of_mem t ht'))
    unfold specRelevanceScore at this
    simp [this]

/-- C2: `calculateBlogRelevanceScore` returns the sum over candidate tags of
`N - index` for each tag whose lowercased form occurs at 0-based position
`index` in the user's top-`N` interest list (absent tags contribute 0), and on
the profile [("javascript", 5), ("react", 3)] with candidates ["react", "css"]
it returns 1. -/
theorem C2_relevance_score_formula :
    (∀ (store : Storage) (now : Int) (tags : List String),
      calculateBlogRelevanceScore store now tags
        = specRelevanceScore tags (getUserTopInterests store now 10))
    ∧ calculateBlogRelevanceScore (some exProfileC2) 0 ["react", "css"] = 1 :=
  ⟨calc_eq_spec, by decide⟩

/-- C4: `getUserInterestProfile` returns the stored profile restricted to
exactly the interests whose `lastUpdated` lies within the last 30 days, and it
leaves the underlying stored profile unchanged (no write occurs). -/
theorem C4_read_filters_without_writing (p : UserInterestProfile) (now : Int) :
    (getUserInterestProfileS (some p) now).1
      = { p with interests :=
            p.interests.filter (fun i => decide (withinLast30Days now i.lastUpdated)) }
    ∧ (getUserInterestProfileS (some p) now).2 = some p :=
  ⟨rfl, rfl⟩

/-- C6: starting from an empty store, 25 sequential `track(["go"])` calls at
the same instant leave exactly one interest entry, with tag "go", score 25 and
viewCount 25. -/
theorem C6_twenty_five_go_views :
    Nat.iterate trackGoStep 25 none
      = some { interests := [⟨"go", 25, 0, 25⟩], totalBlogViews := 25,
               lastActive := 0, created := 0 } := by
  decide

/-- C7: the relevance score is 0 when the (decayed) profile has no interests,
and also when no candidate tag's lowercased form occurs in the user's top
interest list. -/
theorem C7_score_zero_cases (store : Storage) (now : Int) (tags : List String) :
    ((getUserInterestProfile store now).interests = [] →
      calculateBlogRelevanceScore store now tags = 0)
    ∧ ((∀ t ∈ tags, jsToLower t ∉ getUserTopInterests store now 10) →
      calculateBlogRelevanceScore store now tags = 0) := by
  constructor
  · intro h
    rw [calc_eq_spec]
    have htop : getUserTopInterests store now 10 = [] := by
      simp [getUserTopInterests, h]
    rw [htop, specRelevanceScore_nil_top]
  · intro h
    rw [calc_eq_spec]
    exact specRelevanceScore_zero_of_no_overlap _ _ h

/-- Witness for C7: concrete evaluations of both zero cases. -/
theorem C7_score_zero_cases_witness :
    calculateBlogRelevanceScore none 0 ["react"] = 0
    ∧ calculateBlogRelevanceScore (some exProfileC2) 0 ["css", "html"] = 0 :=
  ⟨(C7_score_zero_cases none 0 ["react"]).1 (by decide),
   (C7_score_zero_cases (some exProfileC2) 0 ["css", "html"]).2 (by decide)⟩

/-- C8: scoring only sees the top 10 interests: a candidate tag absent from the
top-10 list (in particular one matching an interest ranked 11th or lower)
contributes 0, and the weight `N` of the `(N - index)` formula is the top
list's length, which equals `min 10 (number of stored interests)`. -/
theorem C8_top_ten_limit (store : Storage) (now : Int) :
    (∀ (t : String) (tags : List String),
      jsToLower t ∉ getUserTopInterests store now 10 →
      calculateBlogRelevanceScore store now (t :: tags)
        = calculateBlogRelevanceScore store now tags)
    ∧ (getUserTopInterests store now 10).length
        = min 10 (getUserInterestProfile store now).interests.length
    ∧ (∀ tags : List String,
      calculateBlogRelevanceScore store now tags
        = specRelevanceScore tags (getUserTopInterests store now 10)) := by
  refine ⟨?_, ?_, fun tags => calc_eq_spec store now tags⟩
  · intro t tags hnot
    rw [calc_eq_spec, calc_eq_spec]
    have hnone : (getUserTopInterests store now 10).findIdx?
        (fun u => u == jsToLower t) = none := by
      rw [List.findIdx?_eq_none_iff]
      intro u hu
      have : u ≠ jsToLower t := fun he => hnot (he ▸ hu)
      simpa using this
    unfold specRelevanceScore
    simp [hnone]
  · simp [getUserTopInterests, List.length_take]

/-- Witness for C8: the tag "k" is ranked 11th in `profile11` and contributes
nothing to a score. -/
theorem C8_top_ten_limit_witness :
    calculateBlogRelevanceScore (some profile11) 0 ["k", "a"]
      = calculateBlogRelevanceScore (some profile11) 0 ["a"] :=
  (C8_top_ten_limit (some profile11) 0).1 "k" ["a"] (by decide)

lemma track_cons_eq (t : String) (ts : List String) (uid : String) (store : Storage)
    (now : Int) :
    trackInterestFromBlog (t :: ts) uid store now
      = some { getUserInterestProfile store now with
          totalBlogViews := (getUserInterestProfile store now).totalBlogViews + 1,
          lastActive := now,
          interests := (sortInterests
            (processTags (getUserInterestProfile store now).interests (t :: ts) now)).take
              MAX_INTERESTS } := rfl

/-- C3 (amended): for every starting store and every NONEMPTY tag-list input,
the profile persisted by `trackInterestFromBlog` has at most 20 interests and
they are ordered by non-increasing score.  (For an empty tag list the function
returns early without persisting, so a seeded over-long stored profile stays.) -/
theorem C3_track_caps_and_sorts (tags : List String) (uid : String) (store : Storage)
    (now : Int) (hne : tags ≠ []) :
    trackInterestFromBlog tags uid store now ≠ none
    ∧ ∀ p : UserInterestProfile, trackInterestFromBlog tags uid store now = some p →
        p.interests.length ≤ 20
        ∧ p.interests.Pairwise (fun a b => b.score ≤ a.score) := by
  cases tags with
  | nil => exact absurd rfl hne
  | cons t ts =>
    rw [track_cons_eq]
    refine ⟨by simp, ?_⟩
    intro p hp
    have hp' := Option.some.inj hp
    constructor
    · rw [← hp']
      have h1 : (List.take MAX_INTERESTS
          (sortInterests (processTags (getUserInterestProfile store now).interests
            (t :: ts) now))).length ≤ MAX_INTERESTS := List.length_take_le _ _
      exact h1
    · rw [← hp']
      have hs : (sortInterests (processTags (getUserInterestProfile store now).interests
          (t :: ts) now)).Pairwise interestLe :=
        List.sorted_insertionSort interestLe _
      exact List.Pairwise.sublist (List.take_sublist _ _) hs

/-- Counterexample to C3 as stated: with an empty tag-list input `track`
returns early without persisting, so a seeded 21-interest stored profile still
holds more than 20 interests afterwards. -/
theorem C3_counterexample_empty_tags :
    trackInterestFromBlog [] "blog-1" (some profile21) 0 = some profile21
    ∧ 20 < profile21.interests.length :=
  ⟨rfl, by decide⟩

/-- Witness for C3 (amended): a concrete `track(["go"])` call on an empty store. -/
theorem C3_track_caps_and_sorts_witness :
    trackInterestFromBlog ["go"] "blog-go" none 0 ≠ none
    ∧ profileGo1.interests.length ≤ 20
    ∧ profileGo1.interests.Pairwise (fun a b => b.score ≤ a.score) :=
  ⟨(C3_track_caps_and_sorts ["go"] "blog-go" none 0 (by decide)).1,
   ((C3_track_caps_and_sorts ["go"] "blog-go" none 0 (by decide)).2 profileGo1 (by decide)).1,
   ((C3_track_caps_and_sorts ["go"] "blog-go" none 0 (by decide)).2 profileGo1 (by decide)).2⟩

lemma addTag_mem_update (now : Int) (l1 : List UserInterest) (e : UserInterest)
    (l2 : List UserInterest) (c : String) (he : e.tag = c)
    (hx : ∀ x ∈ l1, x.tag ≠ c) :
    addTag now (l1 ++ e :: l2) c
      = l1 ++ { e with score := e.score + 1, viewCount := e.viewCount + 1,
                        lastUpdated := now } :: l2 := by
  induction l1 with
  | nil => simp [addTag, he]
  | cons x xs ih =>
    have hxc : x.tag ≠ c := hx x (List.mem_cons_self x xs)
    simp only [List.cons_append, addTag, if_neg hxc, List.append_eq]
    rw [ih (fun y hy => hx y (List.mem_cons_of_mem x hy))]

lemma fOf_nil (f : UserInterest → Int) (c : String) : fOf f [] c = 0 := rfl

lemma fOf_cons_pos (f : UserInterest → Int) (i : UserInterest)
    (rest : List UserInterest) (c : String) (h : i.tag = c) :
    fOf f (i :: rest) c = f i := by
  unfold fOf
  rw [List.find?_cons_of_pos _ (by simp [h])]
  rfl

lemma fOf_cons_neg (f : UserInterest → Int) (i : UserInterest)
    (rest : List UserInterest) (c : String) (h : i.tag ≠ c) :
    fOf f (i :: rest) c = fOf f rest c := by
  unfold fOf
  rw [List.find?_cons_of_neg _ (by simp [h])]

lemma fOf_addTag (f : UserInterest → Int)
    (hupd : ∀ (i : UserInterest) (now : Int),
      f { i with score := i.score + 1, viewCount := i.viewCount + 1,
                  lastUpdated := now } = f i + 1)
    (hnew : ∀ (c : String) (now : Int),
      f { tag := c, score := 1, lastUpdated := now, viewCount := 1 } = 1)
    (l : List UserInterest) (c' c : String) (now : Int) :
    fOf f (addTag now l c') c = fOf f l c + (if c' = c then 1 else 0) := by
  induction l with
  | nil =>
    by_cases h : c' = c
    · rw [if_pos h]
      simp only [addTag]
      rw [fOf_cons_pos f _ _ _ h, fOf_nil, hnew]
      ring
    · rw [if_neg h]
      simp only [addTag]
      rw [fOf_cons_neg f _ _ _ h, fOf_nil]
      ring
  | cons i rest ih =>
    by_cases hic : i.tag = c'
    · simp only [addTag, if_pos hic]
      by_cases h2 : i.tag = c
      · have hcc : c' = c := hic.symm.trans h2
        rw [fOf_cons_pos f { i with score := i.score + 1, viewCount := i.viewCount + 1, lastUpdated := now } rest c h2]
        rw [fOf_cons_pos f i rest c h2, hupd, if_pos hcc]
      · have hcc : c' ≠ c := fun hc => h2 (hic.trans hc)
        rw [fOf_cons_neg f { i with score := i.score + 1, viewCount := i.viewCount + 1, lastUpdated := now } rest c h2]
        rw [fOf_cons_neg f i rest c h2, if_neg hcc, add_zero]
    · simp only [addTag, if_neg hic]
      by_cases h2 : i.tag = c
      · have hcc : c' ≠ c := fun hc => hic (h2.trans hc.symm)
        rw [fOf_cons_pos f i (addTag now rest c') c h2, fOf_cons_pos f i rest c h2,
          if_neg hcc, add_zero]
      · rw [fOf_cons_neg f i (addTag now rest c') c h2, fOf_cons_neg f i rest c h2, ih]

lemma fOf_processTag (f : UserInterest → Int)
    (hupd : ∀ (i : UserInterest) (now : Int),
      f { i with score := i.score + 1, viewCount := i.viewCount + 1,
                  lastUpdated := now } = f i + 1)
    (hnew : ∀ (c : String) (now : Int),
      f { tag := c, score := 1, lastUpdated := now, viewCount := 1 } = 1)
    (interests : List UserInterest) (t : String) (now : Int) (c : String) :
    fOf f (processTag now interests t) c
      = fOf f interests c
        + (if cleanTagOf t ≠ "" ∧ cleanTagOf t = c then 1 else 0) := by
  unfold processTag
  by_cases h : cleanTagOf t = ""
  · simp [h]
  · rw [if_neg h, fOf_addTag f hupd hnew]
    by_cases h2 : cleanTagOf t = c
    · subst h2
      simp [h]
    · simp [h, h2]

lemma processTags_cons (interests : List UserInterest) (t : String) (ts : List String)
    (now : Int) :
    processTags interests (t :: ts) now
      = processTags (processTag now interests t) ts now := rfl

lemma countCleanOcc_cons (t : String) (ts : List String) (c : String) :
    countCleanOcc (t :: ts) c
      = (if cleanTagOf t ≠ "" ∧ cleanTagOf t = c then 1 else 0) + countCleanOcc ts c := by
  unfold countCleanOcc
  simp only [List.map_cons, List.filter_cons]
  by_cases h : cleanTagOf t = ""
  · simp [h]
  · have hkeep : (!(cleanTagOf t == "")) = true := by simp [h]
    rw [if_pos hkeep, List.count_cons]
    by_cases h2 : cleanTagOf t = c
    · subst h2
      simp [h, Nat.add_comm]
    · simp [h, h2, Nat.add_comm]

lemma fOf_processTags (f : UserInterest → Int)
    (hupd : ∀ (i : UserInterest) (now : Int),
      f { i with score := i.score + 1, viewCount := i.viewCount + 1,
                  lastUpdated := now } = f i + 1)
    (hnew : ∀ (c : String) (now : Int),
      f { tag := c, score := 1, lastUpdated := now, viewCount := 1 } = 1)
    (tags : List String) :
    ∀ (interests : List UserInterest) (now : Int) (c : String),
      fOf f (processTags interests tags now) c
        = fOf f interests c + (countCleanOcc tags c : Int) := by
  induction tags with
  | nil => intro interests now c; simp [processTags, countCleanOcc]
  | cons t ts ih =>
    intro interests now c
    rw [processTags_cons, ih, fOf_processTag f hupd hnew, countCleanOcc_cons]
    push_cast
    ring

/-- C9: the tracking loop normalizes each tag by lowercasing and trimming: a
blank-after-cleaning tag is skipped; a tag whose cleaned form equals an
existing interest's tag increments that interest in place rather than creating
a new entry; and a tag occurring `k` times (cleaned, non-blank) in one call's
input increments the matched interest's score and viewCount by `k`. -/
theorem C9_tag_normalization :
    (∀ (interests : List UserInterest) (tag : String) (now : Int),
      cleanTagOf tag = "" → processTag now interests tag = interests)
    ∧ (∀ (l1 l2 : List UserInterest) (e : UserInterest) (tag : String) (now : Int),
      cleanTagOf tag ≠ "" → e.tag = cleanTagOf tag →
      (∀ x ∈ l1, x.tag ≠ cleanTagOf tag) →
      processTag now (l1 ++ e :: l2) tag
        = l1 ++ { e with score := e.score + 1, viewCount := e.viewCount + 1,
                          lastUpdated := now } :: l2)
    ∧ (∀ (interests : List UserInterest) (tags : List String) (now : Int) (c : String),
      fOf (fun i => i.score) (processTags interests tags now) c
        = fOf (fun i => i.score) interests c + (countCleanOcc tags c : Int)
      ∧ fOf (fun i => i.viewCount) (processTags interests tags now) c
        = fOf (fun i => i.viewCount) interests c + (countCleanOcc tags c : Int)) := by
  refine ⟨?_, ?_, ?_⟩
  · intro interests tag now h
    simp [processTag, h]
  · intro l1 l2 e tag now h he hx
    unfold processTag
    rw [if_neg h]
    exact addTag_mem_update now l1 e l2 _ he hx
  · intro interests tags now c
    exact ⟨fOf_processTags (fun i => i.score) (fun _ _ => rfl) (fun _ _ => rfl)
        tags interests now c,
      fOf_processTags (fun i => i.viewCount) (fun _ _ => rfl) (fun _ _ => rfl)
        tags interests now c⟩

/-- Witness for C9: a blank tag is skipped, " B " increments the existing "b"
entry, and two cleaned occurrences of "go" add 2 to its score. -/
theorem C9_tag_normalization_witness :
    processTag 7 [entryA] "  " = [entryA]
    ∧ processTag 5 ([entryA] ++ entryB :: []) " B "
        = [entryA] ++ { entryB with score := entryB.score + 1, viewCount := entryB.viewCount + 1, lastUpdated := 5 } :: []
    ∧ fOf (fun i => i.score) (processTags [] ["Go", "go ", "", "rust"] 3) "go"
        = fOf (fun i => i.score) [] "go"
          + (countCleanOcc ["Go", "go ", "", "rust"] "go" : Int) :=
  ⟨C9_tag_normalization.1 [entryA] "  " 7 (by decide),
   C9_tag_normalization.2.1 [entryA] [] entryB " B " 5 (by decide) (by decide)
     (by decide),
   (C9_tag_normalization.2.2 [] ["Go", "go ", "", "rust"] 3 "go").1⟩

lemma personalize_no_interests {α : Type} (content : List (ContentItem α))
    (options : PersonalizeOptions) (store : Storage) (now : Int)
    (h : hasUserInterests store now = false) :
    personalizeContentByInterests content options store now
      = truncMaxResults content options.maxResults := by
  unfold personalizeContentByInterests
  rw [h]
  simp

lemma personalize_requireMatch_eq {α : Type} (content : List (ContentItem α))
    (options : PersonalizeOptions) (store : Storage) (now : Int)
    (hhas : hasUserInterests store now = true)
    (hreq : options.requireMatch = some true) :
    personalizeContentByInterests content options store now
      = truncMaxResults
          ((if (List.insertionSort scoredLe
              ((content.map (fun item =>
                  (item, calculateBlogRelevanceScore store now (itemTags item)))).filter
                (fun p => decide (options.minScore.getD 1 ≤ p.2)))).isEmpty
            then content.map (fun item =>
              (item, calculateBlogRelevanceScore store now (itemTags item)))
            else List.insertionSort scoredLe
              ((content.map (fun item =>
                  (item, calculateBlogRelevanceScore store now (itemTags item)))).filter
                (fun p => decide (options.minScore.getD 1 ≤ p.2)))).map (fun p => p.1))
          options.maxResults := by
  unfold personalizeContentByInterests
  rw [hhas, hreq]
  simp only [Option.getD_some, Bool.not_true, Bool.false_eq_true, if_false, if_true,
    Bool.and_true, ite_false, ite_true, eq_self_iff_true]

/-- C1 (amended): with `requireMatch` set, a nonempty interest profile, and no
item scoring at least `minScore`, `personalizeContentByInterests` falls back
to the original unfiltered input order (not re-sorted by score), truncated to
`maxResults` when `maxResults` is given AND nonzero (a given-but-zero
`maxResults` is falsy in JavaScript and performs no truncation). -/
theorem C1_requireMatch_fallback_order {α : Type} (content : List (ContentItem α))
    (options : PersonalizeOptions) (store : Storage) (now : Int)
    (hreq : options.requireMatch = some true)
    (hhas : hasUserInterests store now = true)
    (hlow : ∀ item ∈ content,
      calculateBlogRelevanceScore store now (itemTags item) < options.minScore.getD 1) :
    (options.maxResults = none →
      personalizeContentByInterests content options store now = content)
    ∧ ∀ m : Nat, options.maxResults = some m → m ≠ 0 →
      personalizeContentByInterests content options store now = content.take m := by
  have hfilter : (content.map (fun item =>
      (item, calculateBlogRelevanceScore store now (itemTags item)))).filter
      (fun p => decide (options.minScore.getD 1 ≤ p.2)) = [] := by
    rw [List.filter_eq_nil_iff]
    intro p hp
    obtain ⟨item, hitem, rfl⟩ := List.mem_map.1 hp
    simp only [decide_eq_true_eq]
    exact not_le.2 (hlow item hitem)
  have hco : ((fun p : ContentItem α × Int => p.1)
      ∘ (fun item : ContentItem α =>
          (item, calculateBlogRelevanceScore store now (itemTags item))))
      = fun item => item := rfl
  have hkey : personalizeContentByInterests content options store now
      = truncMaxResults content options.maxResults := by
    rw [personalize_requireMatch_eq content options store now hhas hreq, hfilter]
    have h0 : List.insertionSort scoredLe ([] : List (ContentItem α × Int)) = [] := rfl
    rw [h0]
    simp [hco]
  refine ⟨fun hm => ?_, fun m hm hm0 => ?_⟩
  · rw [hkey, hm]
    rfl
  · rw [hkey, hm]
    simp [truncMaxResults, hm0]

/-- Counterexample to C1 as stated: all of C1's hypotheses hold, `maxResults`
is given as 0, yet the output is not truncated to 0 items (JavaScript
truthiness skips `slice` for a zero `maxResults`). -/
theorem C1_counterexample_maxResults_zero :
    hasUserInterests storeX 0 = true
    ∧ optsMatchZero.requireMatch = some true
    ∧ optsMatchZero.maxResults = some 0
    ∧ calculateBlogRelevanceScore storeX 0 (itemTags itemPlain) < optsMatchZero.minScore.getD 1
    ∧ personalizeContentByInterests [itemPlain] optsMatchZero storeX 0 = [itemPlain]
    ∧ personalizeContentByInterests [itemPlain] optsMatchZero storeX 0
        ≠ List.take 0 [itemPlain] := by
  decide

/-- Witness for C1 (amended): a concrete fallback run with `maxResults = 2`. -/
theorem C1_requireMatch_fallback_order_witness :
    personalizeContentByInterests [itemPlain] optsMatchTwo storeX 0
      = List.take 2 [itemPlain] :=
  (C1_requireMatch_fallback_order [itemPlain] optsMatchTwo storeX 0 rfl (by decide)
    (by decide)).2 2 rfl (by decide)

/-- C5 (amended): with `requireMatch` set, a nonempty interest profile, and at
least one item scoring at least `minScore`, `personalizeContentByInterests`
returns exactly the items scoring at least `minScore` sorted by non-increasing
relevance score, truncated to at most `maxResults` items when `maxResults` is
given AND nonzero (a given-but-zero `maxResults` performs no truncation). -/
theorem C5_requireMatch_ranked {α : Type} (content : List (ContentItem α))
    (options : PersonalizeOptions) (store : Storage) (now : Int)
    (hreq : options.requireMatch = some true)
    (hhas : hasUserInterests store now = true)
    (hsome : ∃ item ∈ content,
      options.minScore.getD 1 ≤ calculateBlogRelevanceScore store now (itemTags item)) :
    (rankedMatches content (options.minScore.getD 1) store now).Perm
        (content.filter (fun item =>
          decide (options.minScore.getD 1
            ≤ calculateBlogRelevanceScore store now (itemTags item))))
    ∧ ((rankedMatches content (options.minScore.getD 1) store now).map
        (fun item => calculateBlogRelevanceScore store now (itemTags item))).Pairwise
          (fun x y => y ≤ x)
    ∧ (options.maxResults = none →
        personalizeContentByInterests content options store now
          = rankedMatches content (options.minScore.getD 1) store now)
    ∧ (∀ m : Nat, options.maxResults = some m → m ≠ 0 →
        personalizeContentByInterests content options store now
          = (rankedMatches content (options.minScore.getD 1) store now).take m) := by
  have hcomm : (content.map (fun item =>
      (item, calculateBlogRelevanceScore store now (itemTags item)))).filter
      (fun p => decide (options.minScore.getD 1 ≤ p.2))
      = (content.filter (fun item =>
          decide (options.minScore.getD 1
            ≤ calculateBlogRelevanceScore store now (itemTags item)))).map
        (fun item => (item, calculateBlogRelevanceScore store now (itemTags item))) := by
    rw [List.filter_map]
    rfl
  have hne : content.filter (fun item =>
      decide (options.minScore.getD 1
        ≤ calculateBlogRelevanceScore store now (itemTags item))) ≠ [] := by
    obtain ⟨item, hmem, hge⟩ := hsome
    exact List.ne_nil_of_mem (List.mem_filter.2 ⟨hmem, by simpa using hge⟩)
  have hp1 : (List.insertionSort scoredLe
      ((content.filter (fun item =>
          decide (options.minScore.getD 1
            ≤ calculateBlogRelevanceScore store now (itemTags item)))).map
        (fun item => (item, calculateBlogRelevanceScore store now (itemTags item))))).Perm
      ((content.filter (fun item =>
          decide (options.minScore.getD 1
            ≤ calculateBlogRelevanceScore store now (itemTags item)))).map
        (fun item => (item, calculateBlogRelevanceScore store now (itemTags item)))) :=
    List.perm_insertionSort scoredLe _
  have hsne : List.insertionSort scoredLe
      ((content.filter (fun item =>
          decide (options.minScore.getD 1
            ≤ calculateBlogRelevanceScore store now (itemTags item)))).map
        (fun item => (item, calculateBlogRelevanceScore store now (itemTags item)))) ≠ [] := by
    intro h
    rw [h] at hp1
    have := hp1.symm.eq_nil
    exact hne (List.map_eq_nil_iff.1 this)
  have hPerm : (rankedMatches content (options.minScore.getD 1) store now).Perm
      (content.filter (fun item =>
        decide (options.minScore.getD 1
          ≤ calculateBlogRelevanceScore store now (itemTags item)))) := by
    refine (hp1.map (fun p => p.1)).trans ?_
    have hco : ((fun p : ContentItem α × Int => p.1)
        ∘ (fun item : ContentItem α =>
            (item, calculateBlogRelevanceScore store now (itemTags item))))
        = fun item => item := rfl
    rw [List.map_map, hco, List.map_id']
  have hmem2 : ∀ p ∈ List.insertionSort scoredLe
      ((content.filter (fun item =>
          decide (options.minScore.getD 1
            ≤ calculateBlogRelevanceScore store now (itemTags item)))).map
        (fun item => (item, calculateBlogRelevanceScore store now (itemTags item)))),
      p.2 = calculateBlogRelevanceScore store now (itemTags p.1) := by
    intro p hp
    have hp' := hp1.mem_iff.1 hp
    obtain ⟨item, _, rfl⟩ := List.mem_map.1 hp'
    rfl
  have hPair : ((rankedMatches content (options.minScore.getD 1) store now).map
      (fun item => calculateBlogRelevanceScore store now (itemTags item))).Pairwise
        (fun x y => y ≤ x) := by
    unfold rankedMatches
    rw [List.map_map, List.pairwise_map]
    have hsort := List.sorted_insertionSort scoredLe
      ((content.filter (fun item =>
          decide (options.minScore.getD 1
            ≤ calculateBlogRelevanceScore store now (itemTags item)))).map
        (fun item => (item, calculateBlogRelevanceScore store now (itemTags item))))
    refine hsort.imp_of_mem ?_
    intro a b ha hb hab
    have h2a := hmem2 a ha
    have h2b := hmem2 b hb
    show calculateBlogRelevanceScore store now (itemTags b.1)
      ≤ calculateBlogRelevanceScore store now (itemTags a.1)
    rw [← h2a, ← h2b]
    exact hab
  have hie : (List.insertionSort scoredLe
      ((content.filter (fun item =>
          decide (options.minScore.getD 1
            ≤ calculateBlogRelevanceScore store now (itemTags item)))).map
        (fun item => (item, calculateBlogRelevanceScore store now (itemTags item))))).isEmpty
      = false := by
    cases hc : List.insertionSort scoredLe
      ((content.filter (fun item =>
          decide (options.minScore.getD 1
            ≤ calculateBlogRelevanceScore store now (itemTags item)))).map
        (fun item => (item, calculateBlogRelevanceScore store now (itemTags item)))) with
    | nil => exact absurd hc hsne
    | cons a l => rfl
  have hkey : personalizeContentByInterests content options store now
      = truncMaxResults (rankedMatches content (options.minScore.getD 1) store now)
          options.maxResults := by
    rw [personalize_requireMatch_eq content options store now hhas hreq, hcomm, hie]
    rfl
  refine ⟨hPerm, hPair, fun hm => ?_, fun m hm hm0 => ?_⟩
  · rw [hkey, hm]
    rfl
  · rw [hkey, hm]
    simp [truncMaxResults, hm0]

/-- Counterexample to C5 as stated: all of C5's hypotheses hold, `maxResults`
is given as 0, yet the matching item is returned untruncated. -/
theorem C5_counterexample_maxResults_zero :
    hasUserInterests storeX 0 = true
    ∧ optsMatchZero5.requireMatch = some true
    ∧ optsMatchZero5.maxResults = some 0
    ∧ optsMatchZero5.minScore.getD 1 ≤ calculateBlogRelevanceScore storeX 0 (itemTags itemTaggedX)
    ∧ personalizeContentByInterests [itemTaggedX] optsMatchZero5 storeX 0 = [itemTaggedX]
    ∧ personalizeContentByInterests [itemTaggedX] optsMatchZero5 storeX 0
        ≠ List.take 0 [itemTaggedX] := by
  decide

/-- Witness for C5 (amended): a two-item run where only the tagged item
matches, with `maxResults = 2`. -/
theorem C5_requireMatch_ranked_witness :
    (rankedMatches [itemPlain, itemTaggedX] (optsMatchTwo.minScore.getD 1) storeX 0).Perm
        ([itemPlain, itemTaggedX].filter (fun item =>
          decide (optsMatchTwo.minScore.getD 1
            ≤ calculateBlogRelevanceScore storeX 0 (itemTags item))))
    ∧ personalizeContentByInterests [itemPlain, itemTaggedX] optsMatchTwo storeX 0
        = (rankedMatches [itemPlain, itemTaggedX] (optsMatchTwo.minScore.getD 1) storeX 0).take 2 :=
  ⟨(C5_requireMatch_ranked [itemPlain, itemTaggedX] optsMatchTwo storeX 0 rfl
      (by decide) (by decide)).1,
   (C5_requireMatch_ranked [itemPlain, itemTaggedX] optsMatchTwo storeX 0 rfl
      (by decide) (by decide)).2.2.2 2 rfl (by decide)⟩

/-- C10 (amended): when the (decayed) profile has no interests,
`personalizeContentByInterests` returns the input unchanged and in its
original order, truncated to `maxResults` when `maxResults` is given AND
nonzero (a given-but-zero `maxResults` performs no truncation). -/
theorem C10_no_interests_passthrough {α : Type} (content : List (ContentItem α))
    (options : PersonalizeOptions) (store : Storage) (now : Int)
    (h : (getUserInterestProfile store now).interests = []) :
    (options.maxResults = none →
      personalizeContentByInterests content options store now = content)
    ∧ ∀ m : Nat, options.maxResults = some m → m ≠ 0 →
      personalizeContentByInterests content options store now = content.take m := by
  have hhas : hasUserInterests store now = false := by
    simp [hasUserInterests, h]
  refine ⟨fun hm => ?_, fun m hm hm0 => ?_⟩
  · rw [personalize_no_interests content options store now hhas, hm]
    rfl
  · rw [personalize_no_interests content options store now hhas, hm]
    simp [truncMaxResults, hm0]

/-- Counterexample to C10 as stated: the profile is empty and `maxResults` is
given as 0, yet the item is returned untruncated. -/
theorem C10_counterexample_maxResults_zero :
    (getUserInterestProfile none 0).interests = []
    ∧ optsZero.maxResults = some 0
    ∧ personalizeContentByInterests [itemTaggedX] optsZero none 0 = [itemTaggedX]
    ∧ personalizeContentByInterests [itemTaggedX] optsZero none 0
        ≠ List.take 0 [itemTaggedX] := by
  decide

/-- Witness for C10 (amended): empty store, `maxResults = 1`. -/
theorem C10_no_interests_passthrough_witness :
    personalizeContentByInterests [itemPlain] optsOne none 0 = List.take 1 [itemPlain] :=
  (C10_no_interests_passthrough [itemPlain] optsOne none 0 (by decide)).2 1 rfl (by decide)

end UserInterests
